import Mathlib

/-!
Shallow embedding of the BMP CTF repair tool (`bmp_ctf_tool.py`).

The tool operates on an in-memory byte buffer.  We model the buffer as a
`List (Fin 256)`.  The Python helpers `u16`, `u32`, `p32` (little-endian
struct reads/writes) and `row` (padded row stride) are translated directly.
`struct.pack_into` raises `struct.error` when the buffer is too short or the
value does not fit an unsigned 32-bit integer, so `p32` returns an `Option`.
Python `//` and `%` are floor division and floor modulus, which on `Int`
are `Int.fdiv` and `Int.fmod`.

The `fix` function (repair engine) is translated step by step in the order
of the source: signature check, header parse, offset correction, DIB size
correction, file-size correction, bits-per-pixel check, width inference,
height inference, truncation.  Fatal Python exceptions become the
constructors of `FixErr`; the non-fatal truncation warning becomes a
boolean in the result.  The variant generator `brute_variants` is
translated as `brute_variants` over the same state.
-/

set_option autoImplicit false

set_option maxRecDepth 100000

abbrev Byte := Fin 256

abbrev Buffer := List Byte

def byte (n : Nat) : Byte := ⟨n % 256, Nat.mod_lt _ (by omega)⟩

/-- `struct.unpack_from('<H', b, o)` (only ever called in bounds). -/
def u16 (b : Buffer) (o : Nat) : Nat :=
  (b.getD o 0).val + 256 * (b.getD (o+1) 0).val

/-- `struct.unpack_from('<I', b, o)` (only ever called in bounds). -/
def u32 (b : Buffer) (o : Nat) : Nat :=
  (b.getD o 0).val + 256 * (b.getD (o+1) 0).val +
    65536 * (b.getD (o+2) 0).val + 16777216 * (b.getD (o+3) 0).val

/-- `struct.pack_into('<I', b, o, v)`: writes four little-endian bytes;
`struct.error` (here `none`) when the buffer is too short or `v` is not an
unsigned 32-bit value. -/
def p32 (b : Buffer) (o : Nat) (v : Int) : Option Buffer :=
  if o + 4 ≤ b.length ∧ 0 ≤ v ∧ v < 4294967296 then
    some ((((b.set o (byte v.toNat)).set (o+1) (byte (v.toNat / 256))).set
      (o+2) (byte (v.toNat / 65536))).set (o+3) (byte (v.toNat / 16777216)))
  else none

/-- `row = lambda w, bpp: ((w * (bpp // 8) + 3) // 4) * 4`. -/
def row (w bpp : Nat) : Nat := ((w * (bpp / 8) + 3) / 4) * 4

/-- The six header fields read by `header(buf)`.  All are unsigned as
parsed (`<I` / `<H`), so they are natural numbers. -/
structure Hdr where
  file_size : Nat
  offset : Nat
  dib_size : Nat
  width : Nat
  height : Nat
  bpp : Nat
deriving DecidableEq

/-- `header(buf)`: the six fixed-offset field reads.  In the source this
raises `struct.error` when the buffer is shorter than 30 bytes; `fix`
models that failure separately (`FixErr.shortHeader`). -/
def header (b : Buffer) : Hdr :=
  ⟨u32 b 2, u32 b 10, u32 b 14, u32 b 18, u32 b 22, u16 b 28⟩

/-- `buf[:2] == b'BM'` (66 = 'B', 77 = 'M'). -/
def checkSig : Buffer → Bool
  | b0 :: b1 :: _ => b0.val == 66 && b1.val == 77
  | _ => false

/-- Fatal outcomes of `fix`: the `ValueError("Not a BMP file")`, the
`struct.error` raised by `header` on a short buffer, the
`ValueError("Invalid bits-per-pixel value")`, and any `struct.error`
raised by a `pack_into` call. -/
inductive FixErr
  | notBmp
  | shortHeader
  | invalidBpp
  | structError
deriving DecidableEq

/-- Intermediate state of `fix`: the (mutated) buffer, the (mutated)
header dict and the `changed` flag. -/
structure St where
  buf : Buffer
  hdr : Hdr
  changed : Bool
deriving DecidableEq

/-- Lines 50-51: `if hdr["bpp"] > 8 and hdr["offset"] != 54`. -/
def step1 (s : St) : Except FixErr St :=
  if 8 < s.hdr.bpp ∧ s.hdr.offset ≠ 54 then
    match p32 s.buf 10 54 with
    | none => .error .structError
    | some b => .ok ⟨b, { s.hdr with offset := 54 }, true⟩
  else .ok s

/-- Lines 52-53: `if hdr["dib_size"] != 40`. -/
def step2 (s : St) : Except FixErr St :=
  if s.hdr.dib_size ≠ 40 then
    match p32 s.buf 14 40 with
    | none => .error .structError
    | some b => .ok ⟨b, { s.hdr with dib_size := 40 }, true⟩
  else .ok s

/-- Lines 55-56: `if hdr["file_size"] != len(buf)`. -/
def step3 (s : St) : Except FixErr St :=
  if s.hdr.file_size ≠ s.buf.length then
    match p32 s.buf 2 (s.buf.length : Int) with
    | none => .error .structError
    | some b => .ok ⟨b, { s.hdr with file_size := s.buf.length }, true⟩
  else .ok s

/-- Lines 59-61: `bpp_bytes = hdr["bpp"] // 8; if bpp_bytes == 0: raise`. -/
def bppCheck (s : St) : Except FixErr St :=
  if s.hdr.bpp / 8 = 0 then .error .invalidBpp else .ok s

/-- Lines 63-68, width inference.  `bytes_px()` is
`len(buf) - hdr["offset"]`, an `int` that can be negative. -/
def step4 (s : St) : Except FixErr St :=
  let px : Int := (s.buf.length : Int) - (s.hdr.offset : Int)
  if s.hdr.height ≠ 0 ∧ Int.fmod px (s.hdr.height : Int) = 0 then
    let rowBytes := Int.fdiv px (s.hdr.height : Int)
    if Int.fmod rowBytes 4 = 0 then
      let w := Int.fdiv rowBytes ((s.hdr.bpp / 8 : Nat) : Int)
      if w ≠ 0 ∧ w ≠ (s.hdr.width : Int) then
        match p32 s.buf 18 w with
        | none => .error .structError
        | some b => .ok ⟨b, { s.hdr with width := w.toNat }, true⟩
      else .ok s
    else .ok s
  else .ok s

/-- Lines 70-74, height inference. -/
def step5 (s : St) : Except FixErr St :=
  let px : Int := (s.buf.length : Int) - (s.hdr.offset : Int)
  let rsize := row s.hdr.width s.hdr.bpp
  if rsize ≠ 0 ∧ Int.fmod px (rsize : Int) = 0 then
    let h := Int.fdiv px (rsize : Int)
    if h ≠ 0 ∧ h ≠ (s.hdr.height : Int) then
      match p32 s.buf 22 h with
      | none => .error .structError
      | some b => .ok ⟨b, { s.hdr with height := h.toNat }, true⟩
    else .ok s
  else .ok s

/-- The `expected` length of line 76 (`height` is unsigned as parsed, so
`abs` is the identity). -/
def expectedLen (s : St) : Nat :=
  s.hdr.offset + row s.hdr.width s.hdr.bpp * s.hdr.height

/-- Lines 76-83, truncation / truncation warning.  Returns the final state
and the warning flag. -/
def step6 (s : St) : Except FixErr (St × Bool) :=
  if expectedLen s < s.buf.length then
    match p32 (s.buf.take (expectedLen s)) 2 ((expectedLen s : Nat) : Int) with
    | none => .error .structError
    | some b => .ok (⟨b, { s.hdr with file_size := expectedLen s }, true⟩, false)
  else if s.buf.length < expectedLen s then
    .ok (s, true)
  else
    .ok (s, false)

/-- Signature check, header parse, and steps 1-5 of `fix`. -/
def fixSteps (b : Buffer) : Except FixErr St :=
  if checkSig b = false then .error .notBmp
  else if b.length < 30 then .error .shortHeader
  else
    match step1 ⟨b, header b, false⟩ with
    | .error e => .error e
    | .ok s1 =>
      match step2 s1 with
      | .error e => .error e
      | .ok s2 =>
        match step3 s2 with
        | .error e => .error e
        | .ok s3 =>
          match bppCheck s3 with
          | .error e => .error e
          | .ok s4 =>
            match step4 s4 with
            | .error e => .error e
            | .ok s5 => step5 s5

/-- Result of a non-fatal run of `fix`: the written buffer, the original
header, the fixed header, the `changed` flag, whether the truncation
warning was printed, and the returned `bytes_px()` value. -/
structure FixResult where
  buf : Buffer
  original : Hdr
  hdr : Hdr
  changed : Bool
  warning : Bool
  px : Int
deriving DecidableEq

/-- `fix(path)` over the in-memory buffer: a fatal exception or the
written output together with everything `fix` reports and returns. -/
def fix (b : Buffer) : Except FixErr FixResult :=
  match fixSteps b with
  | .error e => .error e
  | .ok s =>
    match step6 s with
    | .error e => .error e
    | .ok (t, warn) =>
      .ok ⟨t.buf, header b, t.hdr, t.changed, warn,
        (t.buf.length : Int) - (t.hdr.offset : Int)⟩

/-- Which dimension a variant file varies (`_h{h}.bmp` / `_w{w}.bmp`). -/
inductive VTag
  | hDim
  | wDim
deriving DecidableEq

/-- A generated variant: the varied dimension, the value written into it,
and the variant buffer. -/
structure Variant where
  tag : VTag
  value : Int
  buf : Buffer
deriving DecidableEq

/-- Lines 105-115: the height-variant block of `brute_variants`. -/
def heightVariant (buf : Buffer) (hdr : Hdr) (px : Int) : Option (List Variant) :=
  let rowBytes := row hdr.width hdr.bpp
  if rowBytes ≠ 0 ∧ Int.fmod px (rowBytes : Int) = 0 then
    let h := Int.fdiv px (rowBytes : Int)
    if h ≠ (hdr.height : Int) then
      match p32 buf 22 h with
      | none => none
      | some nb =>
        match p32 nb 2 (nb.length : Int) with
        | none => none
        | some nb2 => some [⟨.hDim, h, nb2⟩]
    else some []
  else some []

/-- Lines 117-128: the width-variant block of `brute_variants`.
`w = r // bpp_bytes` raises `ZeroDivisionError` when `bpp < 8`. -/
def widthVariant (buf : Buffer) (hdr : Hdr) (px : Int) : Option (List Variant) :=
  if hdr.height ≠ 0 ∧ Int.fmod px (hdr.height : Int) = 0 then
    let r := Int.fdiv px (hdr.height : Int)
    if Int.fmod r 4 = 0 then
      if hdr.bpp / 8 = 0 then none
      else
        let w := Int.fdiv r ((hdr.bpp / 8 : Nat) : Int)
        if w ≠ (hdr.width : Int) then
          match p32 buf 18 w with
          | none => none
          | some nb =>
            match p32 nb 2 (nb.length : Int) with
            | none => none
            | some nb2 => some [⟨.wDim, w, nb2⟩]
        else some []
    else some []
  else some []

/-- `brute_variants(fix_path, hdr, px_bytes)`: each variant starts from a
fresh copy of the repaired buffer; `none` models an uncaught
`struct.error` / `ZeroDivisionError`. -/
def brute_variants (buf : Buffer) (hdr : Hdr) (px : Int) :
    Option (List Variant) :=
  match heightVariant buf hdr px with
  | none => none
  | some l1 =>
    match widthVariant buf hdr px with
    | none => none
    | some l2 => some (l1 ++ l2)

/-! ### Concrete fixtures

`mkHeader` lays out the 30-byte header region (signature, the six fields at
their fixed offsets, zeros elsewhere); `mkBuf` pads with zero bytes up to a
total length.  The fixtures below are self-contained input files used to
witness or refute the claims. -/

def mkHeader (file_size offset dib w h bpp : Nat) : List Nat :=
  [66, 77,
   file_size % 256, file_size / 256 % 256, file_size / 65536 % 256, file_size / 16777216 % 256,
   0, 0, 0, 0,
   offset % 256, offset / 256 % 256, offset / 65536 % 256, offset / 16777216 % 256,
   dib % 256, dib / 256 % 256, dib / 65536 % 256, dib / 16777216 % 256,
   w % 256, w / 256 % 256, w / 65536 % 256, w / 16777216 % 256,
   h % 256, h / 256 % 256, h / 65536 % 256, h / 16777216 % 256,
   0, 0,
   bpp % 256, bpp / 256 % 256]

def mkBuf (hd : List Nat) (total : Nat) : Buffer :=
  (hd ++ List.replicate (total - hd.length) 0).map byte

/-- A fully consistent 24-bpp file: width 4, height 2, stride 12, offset 54,
length 54 + 24 = 78. -/
def demo78 : Buffer := mkBuf (mkHeader 78 54 40 4 2 24) 78

/-- Consistent header with width 3 at 24 bpp (stride 12 contains padding):
refutes idempotence. -/
def cex2buf : Buffer := mkBuf (mkHeader 66 54 40 3 1 24) 66

/-- bpp = 12: not byte-aligned, but `bpp // 8 = 1`, so `fix` proceeds. -/
def cex3buf : Buffer := mkBuf (mkHeader 58 54 40 4 1 12) 58

/-- bpp = 8, offset 0, width 0, height 0: `expected = 0`, so the
truncation step truncates to an empty buffer and `pack_into` raises. -/
def cex4buf : Buffer := mkBuf (mkHeader 30 0 40 0 0 8) 30

/-- `demo78` with 50 bytes of trailing garbage. -/
def demo128 : Buffer := mkBuf (mkHeader 78 54 40 4 2 24) 128

/-- `demo78` cut down to 60 bytes (missing pixel data). -/
def demo60 : Buffer := mkBuf (mkHeader 60 54 40 4 2 24) 60

/-- Indexed image: bpp = 8, palette before the pixel data, offset 118. -/
def demo126 : Buffer := mkBuf (mkHeader 126 118 40 4 2 8) 126

/-- Repaired state for the variant generator: width 4, height 3, bpp 24,
pixel bytes 24 (stride of width 4 is 12, so the inferred variant height is
2; row bytes per height 3 is 8, so the inferred variant width is 2). -/
def v9buf : Buffer := mkBuf (mkHeader 78 54 40 4 3 24) 78

def v9hdr : Hdr := header v9buf

/-- Truncated file whose pixel area is empty: width 4, height 5, bpp 24,
length = offset = 54, so `pixel_byte_count = 0`. -/
def demoT : Buffer := mkBuf (mkHeader 54 54 40 4 5 24) 54

/-- Projection of a successful `fix` run (fixtures only; the fallback is
never reached on the fixtures it is applied to). -/
def fixOr (b : Buffer) : FixResult :=
  match fix b with
  | .ok r => r
  | .error _ => ⟨[], header [], header [], false, false, 0⟩

/-- Projection of a successful `fixSteps` run. -/
def stOr (b : Buffer) : St :=
  match fixSteps b with
  | .ok s => s
  | .error _ => ⟨[], header [], false⟩

/-- The byte positions inside the six header fields: file_size 2-5,
offset 10-13, dib_size 14-17, width 18-21, height 22-25, bpp 28-29. -/
def hdrByte (i : Nat) : Prop :=
  (2 ≤ i ∧ i ≤ 5) ∨ (10 ≤ i ∧ i ≤ 25) ∨ i = 28 ∨ i = 29

instance (i : Nat) : Decidable (hdrByte i) := by
  unfold hdrByte; exact inferInstance

/-- Length preserved, bytes outside the header fields preserved. -/
def BufFrame (b b' : Buffer) : Prop :=
  b'.length = b.length ∧ ∀ i, ¬ hdrByte i → b'.getD i 0 = b.getD i 0

/-! ### Basic lemmas about the byte-level primitives -/

theorem u32_lt (b : Buffer) (o : Nat) : u32 b o < 4294967296 := by
  have h0 := (b.getD o 0).isLt
  have h1 := (b.getD (o+1) 0).isLt
  have h2 := (b.getD (o+2) 0).isLt
  have h3 := (b.getD (o+3) 0).isLt
  unfold u32; omega

theorem u16_lt (b : Buffer) (o : Nat) : u16 b o < 65536 := by
  have h0 := (b.getD o 0).isLt
  have h1 := (b.getD (o+1) 0).isLt
  unfold u16; omega

theorem p32_eq_some {b b' : Buffer} {o : Nat} {v : Int}
    (h : p32 b o v = some b') :
    o + 4 ≤ b.length ∧ 0 ≤ v ∧ v < 4294967296 ∧ b'.length = b.length ∧
      ∀ i, i < o ∨ o + 4 ≤ i → b'.getD i 0 = b.getD i 0 := by
  unfold p32 at h
  split at h
  case isTrue hc =>
    injection h with h
    subst h
    refine ⟨hc.1, hc.2.1, hc.2.2, by simp, ?_⟩
    intro i hi
    simp only [List.getD_eq_getElem?_getD]
    rw [List.getElem?_set_ne (by omega), List.getElem?_set_ne (by omega),
      List.getElem?_set_ne (by omega), List.getElem?_set_ne (by omega)]
  case isFalse => exact absurd h (by simp)

theorem p32_eq_none {b : Buffer} {o : Nat} {v : Int}
    (h : p32 b o v = none) :
    ¬ (o + 4 ≤ b.length ∧ 0 ≤ v ∧ v < 4294967296) := by
  unfold p32 at h
  split at h
  case isTrue => exact absurd h (by simp)
  case isFalse hc => exact hc

theorem p32_isSome {b : Buffer} {o : Nat} {v : Int}
    (h1 : o + 4 ≤ b.length) (h2 : 0 ≤ v) (h3 : v < 4294967296) :
    ∃ b', p32 b o v = some b' := by
  unfold p32
  rw [if_pos ⟨h1, h2, h3⟩]
  exact ⟨_, rfl⟩

/-! ### Per-step specifications -/

theorem step1_ok {s s' : St} (h : step1 s = .ok s') :
    BufFrame s.buf s'.buf ∧
    s'.hdr.file_size = s.hdr.file_size ∧ s'.hdr.dib_size = s.hdr.dib_size ∧
    s'.hdr.width = s.hdr.width ∧ s'.hdr.height = s.hdr.height ∧
    s'.hdr.bpp = s.hdr.bpp ∧
    ((s.hdr.bpp ≤ 8 ∨ s.hdr.offset = 54) → s' = s) ∧
    (s'.hdr.offset = s.hdr.offset ∨
      (8 < s.hdr.bpp ∧ s.hdr.offset ≠ 54 ∧ s'.hdr.offset = 54)) := by
  unfold step1 at h
  split at h
  case isTrue hc =>
    cases hp : p32 s.buf 10 54 with
    | none => rw [hp] at h; exact absurd h (by simp)
    | some b =>
      rw [hp] at h
      injection h with h
      subst h
      obtain ⟨-, -, -, hlen, hout⟩ := p32_eq_some hp
      refine ⟨⟨hlen, ?_⟩, rfl, rfl, rfl, rfl, rfl, ?_, ?_⟩
      · intro i hi
        simp only [hdrByte, not_or, not_and, not_le] at hi
        exact hout i (by omega)
      · intro hor
        exact absurd hc (by omega)
      · exact Or.inr ⟨hc.1, hc.2, rfl⟩
  case isFalse hc =>
    injection h with h
    subst h
    exact ⟨⟨rfl, fun _ _ => rfl⟩, rfl, rfl, rfl, rfl, rfl, fun _ => rfl, Or.inl rfl⟩

theorem step1_error {s : St} {e : FixErr} (h : step1 s = .error e) :
    e = .structError := by
  unfold step1 at h
  split at h
  case isTrue =>
    cases hp : p32 s.buf 10 54 with
    | none => rw [hp] at h; injection h with h; exact h.symm
    | some b => rw [hp] at h; exact absurd h (by simp)
  case isFalse => exact absurd h (by simp)

theorem step2_ok {s s' : St} (h : step2 s = .ok s') :
    BufFrame s.buf s'.buf ∧
    s'.hdr.file_size = s.hdr.file_size ∧ s'.hdr.offset = s.hdr.offset ∧
    s'.hdr.width = s.hdr.width ∧ s'.hdr.height = s.hdr.height ∧
    s'.hdr.bpp = s.hdr.bpp ∧
    (s.hdr.dib_size = 40 → s' = s) := by
  unfold step2 at h
  split at h
  case isTrue hc =>
    cases hp : p32 s.buf 14 40 with
    | none => rw [hp] at h; exact absurd h (by simp)
    | some b =>
      rw [hp] at h
      injection h with h
      subst h
      obtain ⟨-, -, -, hlen, hout⟩ := p32_eq_some hp
      refine ⟨⟨hlen, ?_⟩, rfl, rfl, rfl, rfl, rfl, fun hd => absurd hd hc⟩
      intro i hi
      simp only [hdrByte, not_or, not_and, not_le] at hi
      exact hout i (by omega)
  case isFalse hc =>
    injection h with h
    subst h
    exact ⟨⟨rfl, fun _ _ => rfl⟩, rfl, rfl, rfl, rfl, rfl, fun _ => rfl⟩

theorem step2_error {s : St} {e : FixErr} (h : step2 s = .error e) :
    e = .structError := by
  unfold step2 at h
  split at h
  case isTrue =>
    cases hp : p32 s.buf 14 40 with
    | none => rw [hp] at h; injection h with h; exact h.symm
    | some b => rw [hp] at h; exact absurd h (by simp)
  case isFalse => exact absurd h (by simp)

theorem step3_ok {s s' : St} (h : step3 s = .ok s') :
    BufFrame s.buf s'.buf ∧
    s'.hdr.dib_size = s.hdr.dib_size ∧ s'.hdr.offset = s.hdr.offset ∧
    s'.hdr.width = s.hdr.width ∧ s'.hdr.height = s.hdr.height ∧
    s'.hdr.bpp = s.hdr.bpp ∧
    s'.hdr.file_size = s.buf.length ∧
    (s.hdr.file_size = s.buf.length → s' = s) ∧
    (s.hdr.file_size ≠ s.buf.length → s.buf.length < 4294967296) := by
  unfold step3 at h
  split at h
  case isTrue hc =>
    cases hp : p32 s.buf 2 (s.buf.length : Int) with
    | none => rw [hp] at h; exact absurd h (by simp)
    | some b =>
      rw [hp] at h
      injection h with h
      subst h
      obtain ⟨-, -, hv, hlen, hout⟩ := p32_eq_some hp
      refine ⟨⟨hlen, ?_⟩, rfl, rfl, rfl, rfl, rfl, rfl,
        fun hd => absurd hd hc, fun _ => by exact_mod_cast hv⟩
      intro i hi
      simp only [hdrByte, not_or, not_and, not_le] at hi
      exact hout i (by omega)
  case isFalse hc =>
    injection h with h
    subst h
    have he : s.hdr.file_size = s.buf.length := by omega
    exact ⟨⟨rfl, fun _ _ => rfl⟩, rfl, rfl, rfl, rfl, rfl, he,
      fun _ => rfl, fun hd => absurd he hd⟩

theorem step3_error {s : St} {e : FixErr} (h : step3 s = .error e) :
    e = .structError := by
  unfold step3 at h
  split at h
  case isTrue =>
    cases hp : p32 s.buf 2 (s.buf.length : Int) with
    | none => rw [hp] at h; injection h with h; exact h.symm
    | some b => rw [hp] at h; exact absurd h (by simp)
  case isFalse => exact absurd h (by simp)

theorem bppCheck_ok {s s' : St} (h : bppCheck s = .ok s') :
    s' = s ∧ s.hdr.bpp / 8 ≠ 0 := by
  unfold bppCheck at h
  split at h
  case isTrue => exact absurd h (by simp)
  case isFalse hc =>
    injection h with h
    exact ⟨h.symm, hc⟩

theorem bppCheck_error {s : St} {e : FixErr} (h : bppCheck s = .error e) :
    e = .invalidBpp ∧ s.hdr.bpp / 8 = 0 := by
  unfold bppCheck at h
  split at h
  case isTrue hc => injection h with h; exact ⟨h.symm, hc⟩
  case isFalse => exact absurd h (by simp)

theorem step4_ok {s s' : St} (h : step4 s = .ok s') :
    BufFrame s.buf s'.buf ∧
    s'.hdr.dib_size = s.hdr.dib_size ∧ s'.hdr.offset = s.hdr.offset ∧
    s'.hdr.file_size = s.hdr.file_size ∧ s'.hdr.height = s.hdr.height ∧
    s'.hdr.bpp = s.hdr.bpp := by
  dsimp only [step4] at h
  split at h
  case isTrue hc =>
    split at h
    case isTrue hc2 =>
      split at h
      case isTrue hc3 =>
        cases hp : p32 s.buf 18 _ with
        | none => rw [hp] at h; exact absurd h (by simp)
        | some b =>
          rw [hp] at h
          injection h with h
          subst h
          obtain ⟨-, -, -, hlen, hout⟩ := p32_eq_some hp
          refine ⟨⟨hlen, ?_⟩, rfl, rfl, rfl, rfl, rfl⟩
          intro i hi
          simp only [hdrByte, not_or, not_and, not_le] at hi
          exact hout i (by omega)
      case isFalse =>
        injection h with h
        subst h
        exact ⟨⟨rfl, fun _ _ => rfl⟩, rfl, rfl, rfl, rfl, rfl⟩
    case isFalse =>
      injection h with h
      subst h
      exact ⟨⟨rfl, fun _ _ => rfl⟩, rfl, rfl, rfl, rfl, rfl⟩
  case isFalse =>
    injection h with h
    subst h
    exact ⟨⟨rfl, fun _ _ => rfl⟩, rfl, rfl, rfl, rfl, rfl⟩

theorem step4_error {s : St} {e : FixErr} (h : step4 s = .error e) :
    e = .structError := by
  dsimp only [step4] at h
  split at h
  case isTrue =>
    split at h
    case isTrue =>
      split at h
      case isTrue =>
        cases hp : p32 s.buf 18 _ with
        | none => rw [hp] at h; injection h with h; exact h.symm
        | some b => rw [hp] at h; exact absurd h (by simp)
      case isFalse => exact absurd h (by simp)
    case isFalse => exact absurd h (by simp)
  case isFalse => exact absurd h (by simp)

theorem step5_ok {s s' : St} (h : step5 s = .ok s') :
    BufFrame s.buf s'.buf ∧
    s'.hdr.dib_size = s.hdr.dib_size ∧ s'.hdr.offset = s.hdr.offset ∧
    s'.hdr.file_size = s.hdr.file_size ∧ s'.hdr.width = s.hdr.width ∧
    s'.hdr.bpp = s.hdr.bpp := by
  dsimp only [step5] at h
  split at h
  case isTrue hc =>
    split at h
    case isTrue hc2 =>
      cases hp : p32 s.buf 22 _ with
      | none => rw [hp] at h; exact absurd h (by simp)
      | some b =>
        rw [hp] at h
        injection h with h
        subst h
        obtain ⟨-, -, -, hlen, hout⟩ := p32_eq_some hp
        refine ⟨⟨hlen, ?_⟩, rfl, rfl, rfl, rfl, rfl⟩
        intro i hi
        simp only [hdrByte, not_or, not_and, not_le] at hi
        exact hout i (by omega)
    case isFalse =>
      injection h with h
      subst h
      exact ⟨⟨rfl, fun _ _ => rfl⟩, rfl, rfl, rfl, rfl, rfl⟩
  case isFalse =>
    injection h with h
    subst h
    exact ⟨⟨rfl, fun _ _ => rfl⟩, rfl, rfl, rfl, rfl, rfl⟩

theorem step5_error {s : St} {e : FixErr} (h : step5 s = .error e) :
    e = .structError := by
  dsimp only [step5] at h
  split at h
  case isTrue =>
    split at h
    case isTrue =>
      cases hp : p32 s.buf 22 _ with
      | none => rw [hp] at h; injection h with h; exact h.symm
      | some b => rw [hp] at h; exact absurd h (by simp)
    case isFalse => exact absurd h (by simp)
  case isFalse => exact absurd h (by simp)

theorem step6_ok {s t : St} {warn : Bool} (h : step6 s = .ok (t, warn)) :
    t.hdr.offset = s.hdr.offset ∧ t.hdr.width = s.hdr.width ∧
    t.hdr.height = s.hdr.height ∧ t.hdr.bpp = s.hdr.bpp ∧
    t.hdr.dib_size = s.hdr.dib_size ∧
    t.buf.length ≤ s.buf.length ∧
    (∀ i, i < t.buf.length → ¬ hdrByte i → t.buf.getD i 0 = s.buf.getD i 0) ∧
    (warn = false → t.buf.length = expectedLen s) ∧
    (warn = true → t = s ∧ s.buf.length < expectedLen s) ∧
    (s.buf.length < expectedLen s → t = s ∧ warn = true) ∧
    (expectedLen s < s.buf.length →
      t.buf.length = expectedLen s ∧ t.hdr.file_size = expectedLen s ∧
      t.changed = true ∧ warn = false) := by
  unfold step6 at h
  split at h
  case isTrue hc =>
    cases hp : p32 (s.buf.take (expectedLen s)) 2 ((expectedLen s : Nat) : Int) with
    | none => rw [hp] at h; exact absurd h (by simp)
    | some b =>
      rw [hp] at h
      injection h with h
      injection h with h hw
      subst h
      subst hw
      obtain ⟨-, -, -, hlen, hout⟩ := p32_eq_some hp
      have htk : (s.buf.take (expectedLen s)).length = expectedLen s := by
        rw [List.length_take]; omega
      have hL : (⟨b, { s.hdr with file_size := expectedLen s }, true⟩ : St).buf.length
          = expectedLen s := by
        simpa [htk] using hlen
      refine ⟨rfl, rfl, rfl, rfl, rfl, by simp [hL]; omega, ?_, fun _ => hL,
        by simp, fun hlt => absurd hc (by omega), fun _ => ⟨hL, rfl, rfl, rfl⟩⟩
      intro i hi hnb
      simp only [hdrByte, not_or, not_and, not_le] at hnb
      have h1 : b.getD i 0 = (s.buf.take (expectedLen s)).getD i 0 :=
        hout i (by omega)
      rw [hL] at hi
      have h2 : (s.buf.take (expectedLen s)).getD i 0 = s.buf.getD i 0 := by
        simp only [List.getD_eq_getElem?_getD]
        rw [List.getElem?_take_of_lt hi]
      exact h1.trans h2
  case isFalse hc =>
    split at h
    case isTrue hc2 =>
      injection h with h
      injection h with h hw
      subst h
      subst hw
      exact ⟨rfl, rfl, rfl, rfl, rfl, le_refl _, fun i _ _ => rfl,
        by simp, fun _ => ⟨rfl, hc2⟩, fun _ => ⟨rfl, rfl⟩,
        fun hgt => absurd hgt hc⟩
    case isFalse hc2 =>
      injection h with h
      injection h with h hw
      subst h
      subst hw
      exact ⟨rfl, rfl, rfl, rfl, rfl, le_refl _, fun i _ _ => rfl,
        fun _ => by omega, by simp, fun hlt => absurd hlt hc2,
        fun hgt => absurd hgt hc⟩

theorem step6_error {s : St} {e : FixErr} (h : step6 s = .error e) :
    e = .structError := by
  unfold step6 at h
  split at h
  case isTrue =>
    cases hp : p32 (s.buf.take (expectedLen s)) 2 ((expectedLen s : Nat) : Int) with
    | none => rw [hp] at h; injection h with h; exact h.symm
    | some b => rw [hp] at h; exact absurd h (by simp)
  case isFalse => split at h <;> exact absurd h (by simp)

theorem step1_isOk {s : St} (h : 14 ≤ s.buf.length) :
    ∃ s', step1 s = .ok s' := by
  unfold step1
  split
  case isTrue =>
    obtain ⟨b, hb⟩ := p32_isSome (b := s.buf) (o := 10) (v := 54) h
      (by norm_num) (by norm_num)
    rw [hb]
    exact ⟨_, rfl⟩
  case isFalse => exact ⟨s, rfl⟩

theorem step2_isOk {s : St} (h : 18 ≤ s.buf.length) :
    ∃ s', step2 s = .ok s' := by
  unfold step2
  split
  case isTrue =>
    obtain ⟨b, hb⟩ := p32_isSome (b := s.buf) (o := 14) (v := 40) h
      (by norm_num) (by norm_num)
    rw [hb]
    exact ⟨_, rfl⟩
  case isFalse => exact ⟨s, rfl⟩

theorem step3_isOk {s : St} (h : 6 ≤ s.buf.length)
    (h2 : s.buf.length < 4294967296) :
    ∃ s', step3 s = .ok s' := by
  unfold step3
  split
  case isTrue =>
    obtain ⟨b, hb⟩ := p32_isSome (b := s.buf) (o := 2) (v := (s.buf.length : Int)) h
      (by positivity) (by exact_mod_cast h2)
    rw [hb]
    exact ⟨_, rfl⟩
  case isFalse => exact ⟨s, rfl⟩

theorem BufFrame_trans {a b c : Buffer} (h1 : BufFrame a b) (h2 : BufFrame b c) :
    BufFrame a c :=
  ⟨h2.1.trans h1.1, fun i hi => (h2.2 i hi).trans (h1.2 i hi)⟩

/-- Everything steps 1-5 guarantee about a successful pre-truncation run. -/
theorem fixSteps_ok {b : Buffer} {s : St} (h : fixSteps b = .ok s) :
    checkSig b = true ∧ 30 ≤ b.length ∧
    BufFrame b s.buf ∧
    s.hdr.bpp = (header b).bpp ∧
    s.hdr.file_size = b.length ∧
    1 ≤ (header b).bpp / 8 ∧
    ((header b).bpp ≤ 8 → s.hdr.offset = (header b).offset) ∧
    (s.hdr.offset = (header b).offset ∨
      (8 < (header b).bpp ∧ (header b).offset ≠ 54 ∧ s.hdr.offset = 54)) ∧
    b.length < 4294967296 := by
  unfold fixSteps at h
  split at h
  case isTrue => exact absurd h (by simp)
  case isFalse hsig =>
    split at h
    case isTrue => exact absurd h (by simp)
    case isFalse hlen =>
      cases h1 : step1 ⟨b, header b, false⟩ with
      | error e => rw [h1] at h; exact absurd h (by simp)
      | ok s1 =>
        rw [h1] at h; dsimp only [] at h
        cases h2 : step2 s1 with
        | error e => rw [h2] at h; exact absurd h (by simp)
        | ok s2 =>
          rw [h2] at h; dsimp only [] at h
          cases h3 : step3 s2 with
          | error e => rw [h3] at h; exact absurd h (by simp)
          | ok s3 =>
            rw [h3] at h; dsimp only [] at h
            cases h4 : bppCheck s3 with
            | error e => rw [h4] at h; exact absurd h (by simp)
            | ok s4 =>
              rw [h4] at h; dsimp only [] at h
              cases h5 : step4 s4 with
              | error e => rw [h5] at h; exact absurd h (by simp)
              | ok s5 =>
                rw [h5] at h; dsimp only [] at h
                obtain ⟨f1, e1fs, e1dib, e1w, e1h, e1bpp, -, e1off⟩ := step1_ok h1
                obtain ⟨f2, e2fs, e2off, e2w, e2h, e2bpp, -⟩ := step2_ok h2
                obtain ⟨f3, e3dib, e3off, e3w, e3h, e3bpp, e3fs, -, e3small⟩ :=
                  step3_ok h3
                obtain ⟨e4eq, e4bpp⟩ := bppCheck_ok h4
                rw [e4eq] at h5
                obtain ⟨f5, e5dib, e5off, e5fs, e5h, e5bpp⟩ := step4_ok h5
                obtain ⟨f6, e6dib, e6off, e6fs, e6w, e6bpp⟩ := step5_ok h
                have hsig' : checkSig b = true := by
                  cases hcs : checkSig b with
                  | false => exact absurd hcs hsig
                  | true => rfl
                have hlen' : 30 ≤ b.length := by omega
                have hbpp : s.hdr.bpp = (header b).bpp := by
                  rw [e6bpp, e5bpp, e3bpp, e2bpp, e1bpp]
                have hlb1 : s1.buf.length = b.length := f1.1
                have hlb2 : s2.buf.length = s1.buf.length := f2.1
                have hlb3 : s3.buf.length = s2.buf.length := f3.1
                have hlb5 : s5.buf.length = s3.buf.length := f5.1
                have hlb6 : s.buf.length = s5.buf.length := f6.1
                have e1fs' : s1.hdr.file_size = (header b).file_size := e1fs
                have hu : (header b).file_size = u32 b 2 := rfl
                have hul := u32_lt b 2
                have hsmall : b.length < 4294967296 := by
                  rcases eq_or_ne s2.hdr.file_size s2.buf.length with hfs | hfs
                  · rw [e2fs, e1fs'] at hfs
                    omega
                  · have := e3small hfs
                    omega
                have hfs : s.hdr.file_size = b.length := by
                  rw [e6fs, e5fs, e3fs]
                  omega
                have hoff : s.hdr.offset = s1.hdr.offset := by
                  rw [e6off, e5off, e3off, e2off]
                refine ⟨hsig', hlen', ?_, hbpp, hfs, ?_, ?_, ?_, hsmall⟩
                · exact BufFrame_trans f1 (BufFrame_trans f2
                    (BufFrame_trans f3 (BufFrame_trans f5 f6)))
                · rw [← hbpp]
                  omega
                · intro hb8
                  rcases e1off with he | he
                  · rw [hoff, he]
                  · exact absurd hb8 (by omega)
                · rcases e1off with he | he
                  · exact Or.inl (by rw [hoff, he])
                  · exact Or.inr ⟨he.1, he.2.1, by rw [hoff, he.2.2]⟩

/-- Decomposition of a successful `fix` run. -/
theorem fix_ok {b : Buffer} {r : FixResult} (h : fix b = .ok r) :
    ∃ s t warn, fixSteps b = .ok s ∧ step6 s = .ok (t, warn) ∧
      r = ⟨t.buf, header b, t.hdr, t.changed, warn,
        (t.buf.length : Int) - (t.hdr.offset : Int)⟩ := by
  unfold fix at h
  cases hs : fixSteps b with
  | error e => rw [hs] at h; exact absurd h (by simp)
  | ok s =>
    rw [hs] at h; dsimp only [] at h
    cases h6 : step6 s with
    | error e => rw [h6] at h; exact absurd h (by simp)
    | ok tw =>
      rw [h6] at h; dsimp only [] at h
      injection h with h
      exact ⟨s, tw.1, tw.2, rfl, h6, h.symm⟩

/-! ### Arithmetic helpers -/

theorem fdiv_coe (m n : Nat) : Int.fdiv (m : Int) (n : Int) = ((m / n : Nat) : Int) :=
  (Int.ofNat_fdiv m n).symm

theorem fmod_coe (m n : Nat) : Int.fmod (m : Int) (n : Int) = ((m % n : Nat) : Int) :=
  (Int.ofNat_fmod m n).symm

theorem row_mod4 (w bpp : Nat) : row w bpp % 4 = 0 := by
  unfold row
  exact Nat.mul_mod_left _ 4

/-! ### Steps that change nothing on already-correct headers -/

theorem step1_idle {s : St} (h : s.hdr.bpp ≤ 8 ∨ s.hdr.offset = 54) :
    step1 s = .ok s := by
  unfold step1
  rcases h with h | h
  · rw [if_neg (by omega)]
  · rw [if_neg (by simp [h])]

theorem step2_idle {s : St} (h : s.hdr.dib_size = 40) :
    step2 s = .ok s := by
  unfold step2
  rw [if_neg (by omega)]

theorem step3_idle {s : St} (h : s.hdr.file_size = s.buf.length) :
    step3 s = .ok s := by
  unfold step3
  rw [if_neg (by omega)]

theorem bppCheck_idle {s : St} (h : s.hdr.bpp / 8 ≠ 0) :
    bppCheck s = .ok s := by
  unfold bppCheck
  rw [if_neg h]

theorem step4_idle {s : St}
    (hst : s.hdr.offset + row s.hdr.width s.hdr.bpp * s.hdr.height = s.buf.length)
    (hw : row s.hdr.width s.hdr.bpp / (s.hdr.bpp / 8) = s.hdr.width ∨
      s.hdr.height = 0) :
    step4 s = .ok s := by
  dsimp only [step4]
  split
  case isTrue hc1 =>
    split
    case isTrue hc2 =>
      split
      case isTrue hc3 =>
        exfalso
        rcases hw with hwid | hh0
        · have hh : s.hdr.height ≠ 0 := hc1.1
          have hpx : ((s.buf.length : Int) - (s.hdr.offset : Int))
              = ((row s.hdr.width s.hdr.bpp * s.hdr.height : Nat) : Int) := by
            push_cast
            omega
          have h1 : Int.fdiv ((s.buf.length : Int) - (s.hdr.offset : Int))
              (s.hdr.height : Int) = ((row s.hdr.width s.hdr.bpp : Nat) : Int) := by
            rw [hpx, fdiv_coe, Nat.mul_div_cancel _ (Nat.pos_of_ne_zero hh)]
          have h2 : Int.fdiv (Int.fdiv ((s.buf.length : Int) - (s.hdr.offset : Int))
              (s.hdr.height : Int)) ((s.hdr.bpp / 8 : Nat) : Int)
              = (s.hdr.width : Int) := by
            rw [h1, fdiv_coe, hwid]
          exact hc3.2 h2
        · exact hc1.1 hh0
      case isFalse => rfl
    case isFalse => rfl
  case isFalse => rfl

theorem step5_idle {s : St}
    (hst : s.hdr.offset + row s.hdr.width s.hdr.bpp * s.hdr.height = s.buf.length) :
    step5 s = .ok s := by
  dsimp only [step5]
  split
  case isTrue hc1 =>
    split
    case isTrue hc2 =>
      exfalso
      have hr : row s.hdr.width s.hdr.bpp ≠ 0 := hc1.1
      have hpx : ((s.buf.length : Int) - (s.hdr.offset : Int))
          = ((row s.hdr.width s.hdr.bpp * s.hdr.height : Nat) : Int) := by
        push_cast
        omega
      have h1 : Int.fdiv ((s.buf.length : Int) - (s.hdr.offset : Int))
          ((row s.hdr.width s.hdr.bpp : Nat) : Int) = (s.hdr.height : Int) := by
        rw [hpx, fdiv_coe, Nat.mul_div_cancel_left _ (Nat.pos_of_ne_zero hr)]
      exact hc2.2 h1
    case isFalse => rfl
  case isFalse => rfl

theorem step6_idle {s : St}
    (hst : s.hdr.offset + row s.hdr.width s.hdr.bpp * s.hdr.height = s.buf.length) :
    step6 s = .ok (s, false) := by
  unfold step6
  have he : expectedLen s = s.buf.length := hst
  rw [if_neg (by omega), if_neg (by omega)]

/-- **C1** (stride invariant): for every buffer on which repair completes
without a fatal error and without a truncation warning, the repaired
header satisfies `row_stride(width, bpp) * height = len(buffer) - pixel_offset`
exactly (and the pixel offset does not exceed the buffer length, so the
natural-number subtraction is the true difference). -/
theorem C1_stride_invariant {b : Buffer} {r : FixResult} (h : fix b = .ok r)
    (hw : r.warning = false) :
    row r.hdr.width r.hdr.bpp * r.hdr.height = r.buf.length - r.hdr.offset ∧
    r.hdr.offset ≤ r.buf.length := by
  obtain ⟨s, t, warn, hs, h6, hr⟩ := fix_ok h
  subst hr
  obtain ⟨o6, w6, h6', b6, d6, le6, fr6, wf6, -, -, -⟩ := step6_ok h6
  have hlen : t.buf.length = expectedLen s := wf6 hw
  have he : expectedLen s = s.hdr.offset + row s.hdr.width s.hdr.bpp * s.hdr.height := rfl
  constructor
  · show row t.hdr.width t.hdr.bpp * t.hdr.height = t.buf.length - t.hdr.offset
    rw [o6, w6, h6', b6, hlen, he]
    omega
  · show t.hdr.offset ≤ t.buf.length
    rw [o6, hlen, he]
    omega

theorem C1_stride_invariant_witness :
    fix demo78 = .ok (fixOr demo78) ∧ (fixOr demo78).warning = false ∧
    row (fixOr demo78).hdr.width (fixOr demo78).hdr.bpp * (fixOr demo78).hdr.height
      = (fixOr demo78).buf.length - (fixOr demo78).hdr.offset :=
  ⟨by rfl, by decide, (C1_stride_invariant (b := demo78) (by rfl) (by decide)).1⟩

/-- **C2** (counterexample): a buffer satisfying all four invariants of
the data model (offset rule, DIB size, file size, stride equation) on
which repair is not idempotent: width 3 at 24 bpp has stride 12
(with 3 bytes of padding), and the width-inference step rewrites the
width to 12 / 3 = 4, reporting a change and mutating the buffer. -/
theorem C2_idempotence_counterexample :
    (8 < (header cex2buf).bpp → (header cex2buf).offset = 54) ∧
    (header cex2buf).dib_size = 40 ∧
    (header cex2buf).file_size = cex2buf.length ∧
    (header cex2buf).offset +
      row (header cex2buf).width (header cex2buf).bpp * (header cex2buf).height
      = cex2buf.length ∧
    fix cex2buf = .ok (fixOr cex2buf) ∧
    (fixOr cex2buf).changed = true ∧
    (fixOr cex2buf).hdr.width ≠ (header cex2buf).width ∧
    (fixOr cex2buf).buf ≠ cex2buf :=
  ⟨by decide, by decide, by decide, by decide, by rfl, by decide, by decide,
    by decide⟩

/-- **C2** (amended): repair is idempotent on correct inputs that in
addition have a byte-aligned pixel size the engine accepts
(`bpp ≥ 8`) and a width that the floor-division recovery
`row_stride / (bpp // 8)` maps back to itself (no padding ambiguity) or a
zero height (the width-inference step is skipped).  On such buffers `fix`
returns the unchanged buffer and header, reports no change and no
truncation warning. -/
theorem C2_idempotent {b : Buffer} (hsig : checkSig b = true)
    (hlen : 30 ≤ b.length)
    (hoff : 8 < (header b).bpp → (header b).offset = 54)
    (hdib : (header b).dib_size = 40)
    (hfs : (header b).file_size = b.length)
    (hst : (header b).offset +
      row (header b).width (header b).bpp * (header b).height = b.length)
    (hbpp : 8 ≤ (header b).bpp)
    (hwrec : row (header b).width (header b).bpp / ((header b).bpp / 8)
      = (header b).width ∨ (header b).height = 0) :
    fix b = .ok ⟨b, header b, header b, false, false,
      (b.length : Int) - ((header b).offset : Int)⟩ := by
  have pre1 : (header b).bpp ≤ 8 ∨ (header b).offset = 54 := by
    rcases le_or_lt (header b).bpp 8 with h | h
    · exact Or.inl h
    · exact Or.inr (hoff h)
  have hbb : (header b).bpp / 8 ≠ 0 := by omega
  have e1 : step1 ⟨b, header b, false⟩ = .ok ⟨b, header b, false⟩ :=
    step1_idle pre1
  have e2 : step2 ⟨b, header b, false⟩ = .ok ⟨b, header b, false⟩ :=
    step2_idle hdib
  have e3 : step3 ⟨b, header b, false⟩ = .ok ⟨b, header b, false⟩ :=
    step3_idle hfs
  have e4 : bppCheck ⟨b, header b, false⟩ = .ok ⟨b, header b, false⟩ :=
    bppCheck_idle hbb
  have e5 : step4 ⟨b, header b, false⟩ = .ok ⟨b, header b, false⟩ :=
    step4_idle hst hwrec
  have e6 : step5 ⟨b, header b, false⟩ = .ok ⟨b, header b, false⟩ :=
    step5_idle hst
  have e7 : step6 ⟨b, header b, false⟩ = .ok (⟨b, header b, false⟩, false) :=
    step6_idle hst
  have hsfix : fixSteps b = .ok ⟨b, header b, false⟩ := by
    unfold fixSteps
    rw [if_neg (by simp [hsig]), if_neg (by omega)]
    rw [e1]; dsimp only []
    rw [e2]; dsimp only []
    rw [e3]; dsimp only []
    rw [e4]; dsimp only []
    rw [e5]; dsimp only []
    exact e6
  unfold fix
  rw [hsfix]; dsimp only []
  rw [e7]

theorem C2_idempotent_witness :
    (header demo78).dib_size = 40 ∧ (header demo78).file_size = demo78.length ∧
    fix demo78 = .ok ⟨demo78, header demo78, header demo78, false, false,
      (demo78.length : Int) - ((header demo78).offset : Int)⟩ :=
  ⟨by decide, by decide,
    C2_idempotent (by decide) (by decide) (by decide) (by decide) (by decide)
      (by decide) (by decide) (by decide)⟩

theorem fixSteps_invalidBpp_iff (b : Buffer) :
    fixSteps b = .error .invalidBpp ↔
      checkSig b = true ∧ 30 ≤ b.length ∧ b.length < 4294967296 ∧
        (header b).bpp / 8 = 0 := by
  constructor
  · intro h
    unfold fixSteps at h
    split at h
    case isTrue => injection h with h; exact FixErr.noConfusion h
    case isFalse hsig =>
      split at h
      case isTrue => injection h with h; exact FixErr.noConfusion h
      case isFalse hlen =>
        cases h1 : step1 ⟨b, header b, false⟩ with
        | error e =>
          rw [h1] at h; dsimp only [] at h
          injection h with h
          rw [h] at h1
          exact FixErr.noConfusion (step1_error h1)
        | ok s1 =>
          rw [h1] at h; dsimp only [] at h
          cases h2 : step2 s1 with
          | error e =>
            rw [h2] at h; dsimp only [] at h
            injection h with h
            rw [h] at h2
            exact FixErr.noConfusion (step2_error h2)
          | ok s2 =>
            rw [h2] at h; dsimp only [] at h
            cases h3 : step3 s2 with
            | error e =>
              rw [h3] at h; dsimp only [] at h
              injection h with h
              rw [h] at h3
              exact FixErr.noConfusion (step3_error h3)
            | ok s3 =>
              rw [h3] at h; dsimp only [] at h
              cases h4 : bppCheck s3 with
              | error e =>
                rw [h4] at h; dsimp only [] at h
                obtain ⟨-, hbz⟩ := bppCheck_error h4
                obtain ⟨f1, e1fs, -, -, -, e1bpp, -, -⟩ := step1_ok h1
                obtain ⟨f2, e2fs, -, -, -, e2bpp, -⟩ := step2_ok h2
                obtain ⟨f3, -, -, -, -, e3bpp, -, -, e3small⟩ := step3_ok h3
                have hsig' : checkSig b = true := by
                  cases hcs : checkSig b with
                  | false => exact absurd hcs hsig
                  | true => rfl
                have e1fs' : s1.hdr.file_size = (header b).file_size := e1fs
                have e1bpp' : s1.hdr.bpp = (header b).bpp := e1bpp
                have hu : (header b).file_size = u32 b 2 := rfl
                have hul := u32_lt b 2
                have hlb1 : s1.buf.length = b.length := f1.1
                have hlb2 : s2.buf.length = s1.buf.length := f2.1
                have hsmall : b.length < 4294967296 := by
                  rcases eq_or_ne s2.hdr.file_size s2.buf.length with hfs | hfs
                  · rw [e2fs, e1fs'] at hfs
                    omega
                  · have := e3small hfs
                    omega
                refine ⟨hsig', by omega, hsmall, ?_⟩
                rw [e3bpp, e2bpp, e1bpp'] at hbz
                exact hbz
              | ok s4 =>
                rw [h4] at h; dsimp only [] at h
                cases h5 : step4 s4 with
                | error e =>
                  rw [h5] at h; dsimp only [] at h
                  injection h with h
                  rw [h] at h5
                  exact FixErr.noConfusion (step4_error h5)
                | ok s5 =>
                  rw [h5] at h; dsimp only [] at h
                  exact FixErr.noConfusion (step5_error h)
  · rintro ⟨hsig, hlen, hsmall, hbz⟩
    obtain ⟨s1, e1⟩ := step1_isOk (s := ⟨b, header b, false⟩) (show 14 ≤ b.length by omega)
    obtain ⟨f1, -, -, -, -, e1bpp, -, -⟩ := step1_ok e1
    have hlb1 : s1.buf.length = b.length := f1.1
    obtain ⟨s2, e2⟩ := step2_isOk (s := s1) (by omega)
    obtain ⟨f2, -, -, -, -, e2bpp, -⟩ := step2_ok e2
    have hlb2 : s2.buf.length = s1.buf.length := f2.1
    obtain ⟨s3, e3⟩ := step3_isOk (s := s2) (by omega) (by omega)
    obtain ⟨f3, -, -, -, -, e3bpp, -, -, -⟩ := step3_ok e3
    have e1bpp' : s1.hdr.bpp = (header b).bpp := e1bpp
    have e4 : bppCheck s3 = .error .invalidBpp := by
      unfold bppCheck
      rw [if_pos (by rw [e3bpp, e2bpp, e1bpp']; exact hbz)]
    unfold fixSteps
    rw [if_neg (by simp [hsig]), if_neg (by omega)]
    rw [e1]; dsimp only []
    rw [e2]; dsimp only []
    rw [e3]; dsimp only []
    rw [e4]

/-- **C3** (amended): repair fails with `InvalidBppError` exactly when the
buffer parses (signature present, at least 30 bytes), its length fits an
unsigned 32-bit value (so the earlier file-size write cannot raise first),
and `bpp // 8 == 0`, i.e. `bpp < 8`: zero or a sub-byte value.  A bpp of
at least 8 that is not a multiple of 8 (e.g. 12) does NOT raise this
error; the engine proceeds with `bpp // 8` bytes per pixel. -/
theorem C3_invalid_bpp (b : Buffer) :
    fix b = .error .invalidBpp ↔
      checkSig b = true ∧ 30 ≤ b.length ∧ b.length < 4294967296 ∧
        (header b).bpp / 8 = 0 := by
  constructor
  · intro h
    unfold fix at h
    cases hs : fixSteps b with
    | error e =>
      rw [hs] at h; dsimp only [] at h
      injection h with h
      rw [h] at hs
      exact (fixSteps_invalidBpp_iff b).mp hs
    | ok s =>
      rw [hs] at h; dsimp only [] at h
      cases h6 : step6 s with
      | error e =>
        rw [h6] at h; dsimp only [] at h
        injection h with h
        rw [h] at h6
        exact FixErr.noConfusion (step6_error h6)
      | ok tw =>
        rw [h6] at h; dsimp only [] at h
        exact Except.noConfusion h
  · intro hc
    unfold fix
    rw [(fixSteps_invalidBpp_iff b).mpr hc]

/-- **C3** (counterexample to the claim as stated): `bpp = 12` is nonzero
and not a multiple of 8, yet repair completes without any error. -/
theorem C3_counterexample :
    (header cex3buf).bpp = 12 ∧ (header cex3buf).bpp % 8 ≠ 0 ∧
    fix cex3buf = .ok (fixOr cex3buf) :=
  ⟨by decide, by decide, by rfl⟩

/-- Classification of the fatal outcomes of steps 1-5. -/
theorem fixSteps_error_class {b : Buffer} {e : FixErr}
    (h : fixSteps b = .error e) :
    (e = .notBmp ∧ checkSig b = false) ∨
    (e = .shortHeader ∧ checkSig b = true ∧ b.length < 30) ∨
    ((e = .invalidBpp ∨ e = .structError) ∧ checkSig b = true ∧ 30 ≤ b.length) := by
  unfold fixSteps at h
  split at h
  case isTrue hc =>
    injection h with h
    exact Or.inl ⟨h.symm, hc⟩
  case isFalse hsig =>
    have hsig' : checkSig b = true := by
      cases hcs : checkSig b with
      | false => exact absurd hcs hsig
      | true => rfl
    split at h
    case isTrue hc =>
      injection h with h
      exact Or.inr (Or.inl ⟨h.symm, hsig', hc⟩)
    case isFalse hlen =>
      refine Or.inr (Or.inr ⟨?_, hsig', by omega⟩)
      cases h1 : step1 ⟨b, header b, false⟩ with
      | error e1 =>
        rw [h1] at h; dsimp only [] at h
        injection h with h
        rw [← h]
        exact Or.inr (step1_error h1)
      | ok s1 =>
        rw [h1] at h; dsimp only [] at h
        cases h2 : step2 s1 with
        | error e2 =>
          rw [h2] at h; dsimp only [] at h
          injection h with h
          rw [← h]
          exact Or.inr (step2_error h2)
        | ok s2 =>
          rw [h2] at h; dsimp only [] at h
          cases h3 : step3 s2 with
          | error e3 =>
            rw [h3] at h; dsimp only [] at h
            injection h with h
            rw [← h]
            exact Or.inr (step3_error h3)
          | ok s3 =>
            rw [h3] at h; dsimp only [] at h
            cases h4 : bppCheck s3 with
            | error e4 =>
              rw [h4] at h; dsimp only [] at h
              injection h with h
              rw [← h]
              exact Or.inl (bppCheck_error h4).1
            | ok s4 =>
              rw [h4] at h; dsimp only [] at h
              cases h5 : step4 s4 with
              | error e5 =>
                rw [h5] at h; dsimp only [] at h
                injection h with h
                rw [← h]
                exact Or.inr (step4_error h5)
              | ok s5 =>
                rw [h5] at h; dsimp only [] at h
                exact Or.inr (step5_error h)

/-- Classification of the fatal outcomes of the whole of `fix`. -/
theorem fix_error_class {b : Buffer} {e : FixErr} (h : fix b = .error e) :
    (e = .notBmp ∧ checkSig b = false) ∨
    (e = .shortHeader ∧ checkSig b = true ∧ b.length < 30) ∨
    ((e = .invalidBpp ∨ e = .structError) ∧ checkSig b = true ∧ 30 ≤ b.length) := by
  unfold fix at h
  cases hs : fixSteps b with
  | error e2 =>
    rw [hs] at h; dsimp only [] at h
    injection h with h
    subst h
    exact fixSteps_error_class hs
  | ok s =>
    rw [hs] at h; dsimp only [] at h
    cases h6 : step6 s with
    | error e2 =>
      rw [h6] at h; dsimp only [] at h
      injection h with h
      subst h
      obtain ⟨hsig, hlen, -⟩ := fixSteps_ok hs
      exact Or.inr (Or.inr ⟨Or.inr (step6_error h6), hsig, hlen⟩)
    | ok tw =>
      rw [h6] at h; dsimp only [] at h
      exact Except.noConfusion h

/-- **C6**: the run aborts with a format error — the missing-signature
`ValueError` raised on `buf[:2] != b'BM'`, or the `struct.error` raised
by `header` on a buffer shorter than 30 bytes — exactly when the buffer
is shorter than 30 bytes or does not start with the ASCII signature
`BM`.  An error result carries no output buffer: the run aborts before
the output file is written. -/
theorem C6_format_error (b : Buffer) :
    (fix b = .error .notBmp ∨ fix b = .error .shortHeader) ↔
      (b.length < 30 ∨ checkSig b = false) := by
  constructor
  · rintro (h | h)
    · rcases fix_error_class h with ⟨-, hc⟩ | ⟨he, -⟩ | ⟨he, -, -⟩
      · exact Or.inr hc
      · exact FixErr.noConfusion he
      · rcases he with he | he <;> exact FixErr.noConfusion he
    · rcases fix_error_class h with ⟨he, -⟩ | ⟨-, -, hc⟩ | ⟨he, -, -⟩
      · exact FixErr.noConfusion he
      · exact Or.inl hc
      · rcases he with he | he <;> exact FixErr.noConfusion he
  · intro hc
    cases hcs : checkSig b with
    | false =>
      left
      unfold fix
      have hfs : fixSteps b = .error .notBmp := by
        unfold fixSteps
        rw [if_pos hcs]
      rw [hfs]
    | true =>
      have hlen : b.length < 30 := by
        rcases hc with h | h
        · exact h
        · exact absurd hcs (by simp [h])
      right
      unfold fix
      have hfs : fixSteps b = .error .shortHeader := by
        unfold fixSteps
        rw [if_neg (by simp [hcs]), if_pos hlen]
      rw [hfs]

/-- **C7**: repair never touches the pixel-offset field when `bpp ≤ 8`,
and whenever the final offset differs from the parsed one the input had
`bpp > 8` with offset ≠ 54 and the new offset is 54. -/
theorem C7_offset_untouched {b : Buffer} {r : FixResult} (h : fix b = .ok r) :
    ((header b).bpp ≤ 8 → r.hdr.offset = (header b).offset) ∧
    (r.hdr.offset ≠ (header b).offset →
      8 < (header b).bpp ∧ (header b).offset ≠ 54 ∧ r.hdr.offset = 54) := by
  obtain ⟨s, t, warn, hs, h6, hr⟩ := fix_ok h
  subst hr
  obtain ⟨-, -, -, -, -, -, hle8, hoffc, -⟩ := fixSteps_ok hs
  obtain ⟨o6, -, -, -, -, -, -, -, -, -, -⟩ := step6_ok h6
  constructor
  · intro h8
    show t.hdr.offset = (header b).offset
    rw [o6]
    exact hle8 h8
  · intro hne
    have hne' : s.hdr.offset ≠ (header b).offset := by
      show ¬ _
      rw [← o6]
      exact hne
    rcases hoffc with he | he
    · exact absurd he hne'
    · exact ⟨he.1, he.2.1, by show t.hdr.offset = 54; rw [o6, he.2.2]⟩

theorem C7_offset_untouched_witness :
    fix demo126 = .ok (fixOr demo126) ∧ (header demo126).bpp ≤ 8 ∧
    (header demo126).offset = 118 ∧
    (fixOr demo126).hdr.offset = (header demo126).offset :=
  ⟨by rfl, by decide, by decide,
    (C7_offset_untouched (b := demo126) (by rfl)).1 (by decide)⟩

/-- **C4** (counterexample to the claim as stated): a parseable buffer
whose length (30) exceeds `expected_length` (0, since width and height
are zero), for which repair does NOT produce a truncated output: the
truncated buffer is empty, so the re-applied file-size `pack_into`
raises `struct.error` and the run dies with no output at all. -/
theorem C4_counterexample :
    fixSteps cex4buf = .ok (stOr cex4buf) ∧
    expectedLen (stOr cex4buf) = 0 ∧
    0 < cex4buf.length ∧
    fix cex4buf = .error .structError :=
  ⟨by rfl, by decide, by decide, by rfl⟩

/-- **C4** (amended): whenever repair reaches the truncation step with a
buffer strictly longer than `expected_length`, and `expected_length` is
at least 6 (so the file-size write fits in the truncated buffer) and
fits an unsigned 32-bit value, the output buffer is truncated to exactly
`expected_length` bytes — i.e. shortened by exactly the excess — and its
`file_size` field is set to the new length. -/
theorem C4_truncation {b : Buffer} {s : St} (hs : fixSteps b = .ok s)
    (hgt : expectedLen s < s.buf.length)
    (h6 : 6 ≤ expectedLen s) (h32 : expectedLen s < 4294967296) :
    ∃ r, fix b = .ok r ∧ r.buf.length = expectedLen s ∧
      r.hdr.file_size = expectedLen s ∧ r.changed = true ∧ r.warning = false ∧
      s.buf.length = b.length ∧
      r.buf.length + (b.length - expectedLen s) = b.length := by
  have htk : (s.buf.take (expectedLen s)).length = expectedLen s := by
    rw [List.length_take]
    omega
  obtain ⟨b2, hp⟩ := p32_isSome (b := s.buf.take (expectedLen s)) (o := 2)
    (v := ((expectedLen s : Nat) : Int)) (by omega) (by positivity)
    (by exact_mod_cast h32)
  have h6eq : step6 s
      = .ok (⟨b2, { s.hdr with file_size := expectedLen s }, true⟩, false) := by
    unfold step6
    rw [if_pos hgt, hp]
  have hlen2 : b2.length = expectedLen s := by
    have := (p32_eq_some hp).2.2.2.1
    omega
  have hsl : s.buf.length = b.length := (fixSteps_ok hs).2.2.1.1
  refine ⟨⟨b2, header b, { s.hdr with file_size := expectedLen s }, true, false,
    (b2.length : Int) - (s.hdr.offset : Int)⟩, ?_, hlen2, rfl, rfl, rfl, hsl, ?_⟩
  · unfold fix
    rw [hs]; dsimp only []
    rw [h6eq]
  · rw [hlen2]
    omega

theorem C4_truncation_witness :
    demo128.length = 128 ∧ expectedLen (stOr demo128) = 78 ∧
    (∃ r, fix demo128 = .ok r ∧ r.buf.length = expectedLen (stOr demo128) ∧
      r.hdr.file_size = expectedLen (stOr demo128) ∧ r.changed = true ∧
      r.warning = false ∧ (stOr demo128).buf.length = demo128.length ∧
      r.buf.length + (demo128.length - expectedLen (stOr demo128))
        = demo128.length) :=
  ⟨by decide, by decide,
    C4_truncation (b := demo128) (s := stOr demo128) (by rfl) (by decide)
      (by decide) (by decide)⟩

/-- **C5**: whenever repair reaches the truncation step with a buffer
strictly shorter than `expected_length`, the buffer is not modified
further, the non-fatal truncation warning is raised, and the run still
completes with the header fields as corrected by the earlier steps. -/
theorem C5_under_length {b : Buffer} {s : St} (hs : fixSteps b = .ok s)
    (hlt : s.buf.length < expectedLen s) :
    fix b = .ok ⟨s.buf, header b, s.hdr, s.changed, true,
      (s.buf.length : Int) - (s.hdr.offset : Int)⟩ := by
  have h6eq : step6 s = .ok (s, true) := by
    unfold step6
    rw [if_neg (by omega), if_pos hlt]
  unfold fix
  rw [hs]; dsimp only []
  rw [h6eq]

theorem C5_under_length_witness :
    fixSteps demo60 = .ok (stOr demo60) ∧
    (stOr demo60).buf.length < expectedLen (stOr demo60) ∧
    fix demo60 = .ok ⟨(stOr demo60).buf, header demo60, (stOr demo60).hdr,
      (stOr demo60).changed, true,
      ((stOr demo60).buf.length : Int) - ((stOr demo60).hdr.offset : Int)⟩ :=
  ⟨by rfl, by decide,
    C5_under_length (b := demo60) (s := stOr demo60) (by rfl) (by decide)⟩

/-- **C8**: on every non-fatal run the output buffer never grows, and
every byte of it outside the six header fields (offsets 2-5, 10-25,
28-29) equals the corresponding input byte — pixel data that survives
the optional trailing truncation is copied verbatim. -/
theorem C8_frame {b : Buffer} {r : FixResult} (h : fix b = .ok r) :
    r.buf.length ≤ b.length ∧
    ∀ i, i < r.buf.length → ¬ hdrByte i → r.buf.getD i 0 = b.getD i 0 := by
  obtain ⟨s, t, warn, hs, h6, hr⟩ := fix_ok h
  subst hr
  have hf : BufFrame b s.buf := (fixSteps_ok hs).2.2.1
  obtain ⟨-, -, -, -, -, le6, fr6, -, -, -, -⟩ := step6_ok h6
  constructor
  · show t.buf.length ≤ b.length
    have := hf.1
    omega
  · intro i hi hnb
    show t.buf.getD i 0 = b.getD i 0
    exact (fr6 i hi hnb).trans (hf.2 i hnb)

theorem C8_frame_witness :
    fix demo128 = .ok (fixOr demo128) ∧
    (fixOr demo128).buf.length ≤ demo128.length ∧
    (fixOr demo128).buf.getD 60 0 = demo128.getD 60 0 :=
  ⟨by rfl, (C8_frame (b := demo128) (by rfl)).1,
    (C8_frame (b := demo128) (by rfl)).2 60 (by decide) (by decide)⟩

/-! ### Variant generator lemmas -/

theorem heightVariant_mem {buf : Buffer} {hdr : Hdr} {px : Int}
    {l : List Variant} {v : Variant}
    (h : heightVariant buf hdr px = some l) (hv : v ∈ l) :
    v.tag = VTag.hDim ∧ row hdr.width hdr.bpp ≠ 0 ∧
    Int.fmod px ((row hdr.width hdr.bpp : Nat) : Int) = 0 ∧
    v.value = Int.fdiv px ((row hdr.width hdr.bpp : Nat) : Int) ∧
    v.value ≠ (hdr.height : Int) := by
  dsimp only [heightVariant] at h
  split at h
  case isTrue hc =>
    split at h
    case isTrue hc2 =>
      cases hp : p32 buf 22 _ with
      | none => rw [hp] at h; exact absurd h (by simp)
      | some nb =>
        rw [hp] at h; dsimp only [] at h
        cases hp2 : p32 nb 2 (nb.length : Int) with
        | none => rw [hp2] at h; exact absurd h (by simp)
        | some nb2 =>
          rw [hp2] at h
          injection h with h
          subst h
          rw [List.mem_singleton] at hv
          subst hv
          exact ⟨rfl, hc.1, hc.2, rfl, hc2⟩
    case isFalse =>
      injection h with h
      subst h
      exact absurd hv (List.not_mem_nil v)
  case isFalse =>
    injection h with h
    subst h
    exact absurd hv (List.not_mem_nil v)

theorem widthVariant_mem {buf : Buffer} {hdr : Hdr} {px : Int}
    {l : List Variant} {v : Variant}
    (h : widthVariant buf hdr px = some l) (hv : v ∈ l) :
    v.tag = VTag.wDim ∧ hdr.height ≠ 0 ∧
    Int.fmod px ((hdr.height : Nat) : Int) = 0 ∧
    Int.fmod (Int.fdiv px ((hdr.height : Nat) : Int)) 4 = 0 ∧
    hdr.bpp / 8 ≠ 0 ∧
    v.value = Int.fdiv (Int.fdiv px ((hdr.height : Nat) : Int))
      ((hdr.bpp / 8 : Nat) : Int) ∧
    v.value ≠ (hdr.width : Int) ∧ 0 ≤ v.value := by
  dsimp only [widthVariant] at h
  split at h
  case isTrue hc =>
    split at h
    case isTrue hc2 =>
      split at h
      case isTrue => exact Option.noConfusion h
      case isFalse hbb =>
        split at h
        case isTrue hc3 =>
          cases hp : p32 buf 18 _ with
          | none => rw [hp] at h; exact absurd h (by simp)
          | some nb =>
            rw [hp] at h; dsimp only [] at h
            cases hp2 : p32 nb 2 (nb.length : Int) with
            | none => rw [hp2] at h; exact absurd h (by simp)
            | some nb2 =>
              rw [hp2] at h
              injection h with h
              subst h
              rw [List.mem_singleton] at hv
              subst hv
              exact ⟨rfl, hc.1, hc.2, hc2, hbb, rfl, hc3,
                (p32_eq_some hp).2.1⟩
        case isFalse =>
          injection h with h
          subst h
          exact absurd hv (List.not_mem_nil v)
    case isFalse =>
      injection h with h
      subst h
      exact absurd hv (List.not_mem_nil v)
  case isFalse =>
    injection h with h
    subst h
    exact absurd hv (List.not_mem_nil v)

theorem brute_variants_eq_some {buf : Buffer} {hdr : Hdr} {px : Int}
    {l : List Variant} (h : brute_variants buf hdr px = some l) :
    ∃ l1 l2, heightVariant buf hdr px = some l1 ∧
      widthVariant buf hdr px = some l2 ∧ l = l1 ++ l2 := by
  unfold brute_variants at h
  cases h1 : heightVariant buf hdr px with
  | none => rw [h1] at h; exact absurd h (by simp)
  | some l1 =>
    rw [h1] at h; dsimp only [] at h
    cases h2 : widthVariant buf hdr px with
    | none => rw [h2] at h; exact absurd h (by simp)
    | some l2 =>
      rw [h2] at h; dsimp only [] at h
      injection h with h
      exact ⟨l1, l2, rfl, rfl, h.symm⟩

/-- The floor recovery of the stride: a positive multiple of 4, divided
by a byte count between 1 and 4 and fed back through `row`, returns the
original value. -/
theorem row_recover {R bpp : Nat} (h1 : 1 ≤ bpp / 8) (h4 : bpp / 8 ≤ 4)
    (hR4 : R % 4 = 0) : row (R / (bpp / 8)) bpp = R := by
  unfold row
  have hcase : bpp / 8 = 1 ∨ bpp / 8 = 2 ∨ bpp / 8 = 3 ∨ bpp / 8 = 4 := by omega
  rcases hcase with hbb | hbb | hbb | hbb <;> rw [hbb] <;> omega

/-- **C9** (counterexample to the claim as stated): a repaired state
(width 4, height 3, bpp 24, 24 pixel bytes) from which `brute_variants`
generates both a height-variant and a width-variant, yet the height
formula applied to the height-variant's width (which is the repaired
width, 4) yields the variant height 2, not the repaired height 3 — by
construction the height-variant exists only when that value differs
from the repaired height. -/
theorem C9_counterexample :
    (v9buf.length : Int) - (v9hdr.offset : Int) = 24 ∧
    (brute_variants v9buf v9hdr 24).isSome = true ∧
    (∃ v ∈ (brute_variants v9buf v9hdr 24).getD [], v.tag = VTag.hDim) ∧
    (∃ v ∈ (brute_variants v9buf v9hdr 24).getD [], v.tag = VTag.wDim) ∧
    ∀ v ∈ (brute_variants v9buf v9hdr 24).getD [], v.tag = VTag.hDim →
      Int.fdiv 24 ((row (u32 v.buf 18) v9hdr.bpp : Nat) : Int)
        ≠ (v9hdr.height : Int) := by
  refine ⟨by decide, by decide, by decide, by decide, ?_⟩
  decide

/-- **C9** (amended): whenever `brute_variants` generates both a
height-variant and a width-variant from the same repaired state, with a
positive pixel-byte count and a pixel size of one to four bytes
(`8 ≤ bpp < 40`), applying the height formula to the *width-variant's*
width reproduces the original repaired height: the round-trip of the
stride equation holds in that direction. -/
theorem C9_variant_duality {buf : Buffer} {hdr : Hdr} {px : Int}
    {l : List Variant} {hv wv : Variant}
    (h : brute_variants buf hdr px = some l)
    (hmem : hv ∈ l) (htag : hv.tag = VTag.hDim)
    (wmem : wv ∈ l) (wtag : wv.tag = VTag.wDim)
    (hbpp : 8 ≤ hdr.bpp) (hbpp4 : hdr.bpp < 40) (hpx : 0 < px) :
    Int.fmod px ((row wv.value.toNat hdr.bpp : Nat) : Int) = 0 ∧
    Int.fdiv px ((row wv.value.toNat hdr.bpp : Nat) : Int) = (hdr.height : Int) := by
  obtain ⟨l1, l2, h1, h2, hl⟩ := brute_variants_eq_some h
  subst hl
  have hw2 : wv ∈ l2 := by
    rcases List.mem_append.mp wmem with hm | hm
    · have ht := (heightVariant_mem h1 hm).1
      rw [wtag] at ht
      exact VTag.noConfusion ht
    · exact hm
  obtain ⟨-, hh0, hmod, hr4, -, hval, -, -⟩ := widthVariant_mem h2 hw2
  -- px = height * r with r = px // height
  have hfd := Int.fmod_add_fdiv px (hdr.height : Int)
  rw [hmod] at hfd
  have hpxeq : (hdr.height : Int) * Int.fdiv px (hdr.height : Int) = px := by
    simpa using hfd
  have hHpos : (0 : Int) < (hdr.height : Int) := by
    exact_mod_cast Nat.pos_of_ne_zero hh0
  have hrpos : 0 < Int.fdiv px (hdr.height : Int) := by
    rcases lt_trichotomy (Int.fdiv px (hdr.height : Int)) 0 with hr | hr | hr
    · have := mul_neg_of_pos_of_neg hHpos hr
      linarith [hpxeq]
    · rw [hr, mul_zero] at hpxeq
      omega
    · exact hr
  -- move to natural numbers
  set R : Nat := (Int.fdiv px (hdr.height : Int)).toNat with hRdef
  have hrR : (R : Int) = Int.fdiv px (hdr.height : Int) :=
    Int.toNat_of_nonneg (le_of_lt hrpos)
  have hR4 : R % 4 = 0 := by
    have h4 : ((4 : Nat) : Int) = (4 : Int) := by norm_num
    have hh := fmod_coe R 4
    rw [h4, hrR, hr4] at hh
    exact_mod_cast hh.symm
  have hW : wv.value.toNat = R / (hdr.bpp / 8) := by
    rw [hval, ← hrR, fdiv_coe]
    exact Int.toNat_ofNat _
  have hrow : row wv.value.toNat hdr.bpp = R := by
    rw [hW]
    exact row_recover (by omega) (by omega) hR4
  have hpx' : px = ((hdr.height * R : Nat) : Int) := by
    push_cast
    rw [hrR]
    exact hpxeq.symm
  have hRpos : 0 < R := by
    omega
  constructor
  · rw [hrow, hpx', fmod_coe, Nat.mul_mod_left]
    norm_num
  · rw [hrow, hpx', fdiv_coe, Nat.mul_div_cancel _ hRpos]

def v9list : List Variant := (brute_variants v9buf v9hdr 24).getD []

def v9hv : Variant := v9list.getD 0 ⟨VTag.hDim, 0, []⟩

def v9wv : Variant := v9list.getD 1 ⟨VTag.hDim, 0, []⟩

theorem C9_variant_duality_witness :
    Int.fmod 24 ((row v9wv.value.toNat v9hdr.bpp : Nat) : Int) = 0 ∧
    Int.fdiv 24 ((row v9wv.value.toNat v9hdr.bpp : Nat) : Int)
      = (v9hdr.height : Int) :=
  @C9_variant_duality v9buf v9hdr 24 v9list v9hv v9wv (by rfl) (by decide)
    (by decide) (by decide) (by decide) (by decide) (by decide) (by decide)

/-- **C10**: the variant generator, unlike the repair engine's height
inference (which only adopts a nonzero inferred height — on this very
input `fix` leaves the parsed height 5 in place), does not require the
inferred variant height to be nonzero: from the repaired state of
`demoT` (pixel byte count 0, width 4, height 5) it emits a
height-variant whose height field is 0. -/
theorem C10_zero_height_variant :
    fix demoT = .ok (fixOr demoT) ∧
    (fixOr demoT).px = 0 ∧
    (fixOr demoT).hdr.width ≠ 0 ∧
    (fixOr demoT).hdr.height ≠ 0 ∧
    (fixOr demoT).hdr.height = (header demoT).height ∧
    (brute_variants (fixOr demoT).buf (fixOr demoT).hdr
      (fixOr demoT).px).isSome = true ∧
    ∃ v ∈ (brute_variants (fixOr demoT).buf (fixOr demoT).hdr
      (fixOr demoT).px).getD [],
      v.tag = VTag.hDim ∧ v.value = 0 ∧ u32 v.buf 22 = 0 :=
  ⟨by rfl, by decide, by decide, by decide, by decide, by decide, by decide⟩
